import Mathlib

/-!
Verification development for the video-sync server (`server.js`).

The file shallowly embeds the two cores of the server:

* the Socket.IO gateway (`io.on('connection', ...)`): the global
  `rooms : Map` registry, the `join-room`, `video-state-change`,
  `chat-message` and `disconnect` handlers, with Socket.IO room
  membership (`socket.join` / `socket.to` / `io.to`) modelled
  explicitly, and external effects (Mongo persistence, emits) recorded
  as an ordered effect trace;

* the HTTP video streaming route (`GET /api/stream/:roomId`): JS
  `parseInt`, `String.replace(/bytes=/, "")`, `split("-")`, Node's
  `fs.createReadStream` start/end validation, and the 200/206/404/500
  response shapes.

Machine integers do not overflow in the modelled paths; numbers are
`Nat`/`Int`.
-/

/-- Playback state objects `{ isPlaying, currentTime }` (the spec calls
`currentTime` "positionSeconds"). -/
structure VideoState where
  isPlaying : Bool
  currentTime : Int
deriving DecidableEq, Repr

/-- One value of the global `rooms` map:
`{ videoState, users : Set<socketId> }`. -/
structure RoomSession where
  videoState : VideoState
  users : Finset String
deriving DecidableEq

/-- Gateway state: the in-memory `rooms` registry (roomId → session) plus
Socket.IO's own room membership (roomId → set of sockets), which
`socket.join` adds to and which `socket.to` / `io.to` broadcast from. -/
structure GatewayState where
  registry : String → Option RoomSession
  socketRooms : String → Finset String

/-- A persisted chat `Message` document: `{ room, user, message, timestamp }`. -/
structure ChatRecord where
  room : String
  user : String
  message : String
  timestamp : Nat
deriving DecidableEq, Repr

/-- Payload of a server→client emit. -/
inductive Payload where
  | video (videoState : VideoState)
  | chat (message username : String) (timestamp : Nat)
deriving DecidableEq, Repr

/-- External effects of one handler invocation, in program order:
a Mongo save of a chat record, or a Socket.IO emit to a recipient set. -/
inductive Effect where
  | persist (stored : ChatRecord)
  | send (recipients : Finset String) (event : String) (payload : Payload)
deriving DecidableEq

/-- External collaborators: `jwt.verify` (token → user id, `none` = the
verify throws) and Mongo's `populate('user','username')` (user id →
username). -/
structure Env where
  verify : String → Option String
  usernameOf : String → String

/-- Incoming socket events. For `chat-message`, `now` is the timestamp
Mongo assigns the document, `saveOk` is whether `newMessage.save()`
succeeds, and `populateOk` is whether the follow-up
`findById(..).populate(..)` succeeds. -/
inductive ClientEvent where
  | joinRoom (sock roomId : String)
  | videoStateChange (sock roomId : String) (videoState : VideoState)
  | chatMessage (sock roomId message token : String) (now : Nat) (saveOk populateOk : Bool)
  | disconnect (sock : String)

/-- Point update of a string-keyed map. -/
def upd {α : Type} (f : String → α) (k : String) (v : α) : String → α :=
  fun x => if x = k then v else f x

/-- The default session created by the `join-room` handler:
`{ videoState: { isPlaying: false, currentTime: 0 }, users: new Set() }`. -/
def freshSession : RoomSession :=
  { videoState := { isPlaying := false, currentTime := 0 }, users := ∅ }

/-- One step of the `io.on('connection')` handlers. Returns the new
gateway state, the new chat store contents, and the ordered list of
external effects the handler performed. -/
def handleEvent (env : Env) (st : GatewayState) (db : List ChatRecord) :
    ClientEvent → GatewayState × List ChatRecord × List Effect
  | .joinRoom sock roomId =>
      -- socket.join(roomId)
      let sr := upd st.socketRooms roomId (insert sock (st.socketRooms roomId))
      -- if (!rooms.has(roomId)) rooms.set(roomId, {videoState: .., users: new Set()})
      let reg0 := match st.registry roomId with
        | some _ => st.registry
        | none => upd st.registry roomId (some freshSession)
      -- rooms.get(roomId).users.add(socket.id)
      let reg := match reg0 roomId with
        | some s => upd reg0 roomId (some { s with users := insert sock s.users })
        | none => reg0
      ({ registry := reg, socketRooms := sr }, db, [])
  | .videoStateChange sock roomId vs =>
      match st.registry roomId with
      | none => (st, db, [])
      | some s =>
          ({ st with registry := upd st.registry roomId (some { s with videoState := vs }) },
           db,
           [.send ((st.socketRooms roomId).erase sock) "video-state-update" (.video vs)])
  | .chatMessage _sock roomId message token now saveOk populateOk =>
      match env.verify token with
      | none => (st, db, [])   -- jwt.verify throws → catch { log }
      | some uid =>
          if saveOk then
            let stored : ChatRecord :=
              { room := roomId, user := uid, message := message, timestamp := now }
            if populateOk then
              (st, db ++ [stored],
               [.persist stored,
                .send (st.socketRooms roomId) "chat-message"
                  (.chat stored.message (env.usernameOf uid) stored.timestamp)])
            else
              (st, db ++ [stored], [.persist stored])
          else
            (st, db, [])       -- newMessage.save() throws → catch { log }
  | .disconnect sock =>
      let reg := fun r => match st.registry r with
        | none => none
        | some s =>
            let u := s.users.erase sock
            if u = ∅ then none else some { s with users := u }
      ({ registry := reg, socketRooms := fun r => (st.socketRooms r).erase sock }, db, [])

/-- Member set of a room's live session (`∅` when no session). -/
def sessionUsers (st : GatewayState) (r : String) : Finset String :=
  (st.registry r).elim ∅ (fun s => s.users)

/-- The server's initial state: `const rooms = new Map()`, no socket in
any Socket.IO room. -/
def initialGateway : GatewayState :=
  { registry := fun _ => none, socketRooms := fun _ => ∅ }

/-- States (and chat stores) reachable by the socket handlers from server
start, over arbitrary environments and events. -/
inductive Reachable : GatewayState → List ChatRecord → Prop where
  | init : Reachable initialGateway []
  | step (env : Env) (st : GatewayState) (db : List ChatRecord) (e : ClientEvent) :
      Reachable st db →
      Reachable (handleEvent env st db e).1 (handleEvent env st db e).2.1

/-- Structural invariant maintained by the handlers: every live session
has a non-empty member set, and session membership coincides with
Socket.IO room membership. -/
def GatewayInv (st : GatewayState) : Prop :=
  ∀ r, (∀ s, st.registry r = some s → s.users.Nonempty) ∧
    sessionUsers st r = st.socketRooms r

/-! ## The streaming route `GET /api/stream/:roomId` -/

/-- A mongoose `Room` document, restricted to the fields the streaming
route reads. `localFilePath = none` models an absent field; the route
also treats the empty string as falsy. -/
structure Room where
  isLocalFile : Bool
  localFilePath : Option String
deriving DecidableEq

/-- Responses of the streaming route. `ranged` carries the pieces of the
206 answer: the `start` and `end` written into
`Content-Range: bytes start-end/fileSize` (together with
`Accept-Ranges: bytes`), the `Content-Length` value (`chunksize`), and
the streamed bytes. `ok` is the 200 full-file answer with its
`Content-Length`. `notFound` is `404 'Video not found'`; `serverError`
is the catch-all `500 'Error streaming video'`. -/
inductive HttpResponse where
  | notFound
  | serverError
  | ok (contentLength : Nat) (body : List Nat)
  | ranged (start endPos : Int) (fileSize : Nat) (contentLength : Int) (body : List Nat)
deriving DecidableEq, Repr

/-- Does `pat` occur at the head of `s`? -/
def matchesAt : List Char → List Char → Bool
  | [], _ => true
  | _ :: _, [] => false
  | p :: ps, c :: cs => p == c && matchesAt ps cs

/-- JS `s.replace(/pat/, "")` for a literal pattern: remove the first
occurrence of `pat` from `s` (no occurrence: `s` unchanged). -/
def removeFirstOcc (pat : List Char) : List Char → List Char
  | [] => []
  | c :: cs =>
      if matchesAt pat (c :: cs) then (c :: cs).drop pat.length
      else c :: removeFirstOcc pat cs

/-- JS `str.split(sep)` for a one-character separator: split at every
occurrence, keeping empty pieces (`"".split` gives `[""]`,
`"500-".split("-")` gives `["500", ""]`). -/
def splitOnChar (sep : Char) : List Char → List (List Char)
  | [] => [[]]
  | c :: cs =>
      if c == sep then [] :: splitOnChar sep cs
      else match splitOnChar sep cs with
        | h :: t => (c :: h) :: t
        | [] => [[c]]

/-- Value of a digit string. -/
def digitsVal (ds : List Char) : Nat :=
  ds.foldl (fun a c => a * 10 + (c.toNat - 48)) 0

/-- JS `parseInt(s, 10)`: skip leading whitespace, an optional sign, then
the longest digit prefix; `none` models `NaN` (no digits found). -/
def parseIntJS (s : List Char) : Option Int :=
  let t := s.dropWhile Char.isWhitespace
  match t with
  | '-' :: r =>
      let ds := r.takeWhile Char.isDigit
      if ds = [] then none else some (-(digitsVal ds : Int))
  | '+' :: r =>
      let ds := r.takeWhile Char.isDigit
      if ds = [] then none else some ((digitsVal ds : Int))
  | _ =>
      let ds := t.takeWhile Char.isDigit
      if ds = [] then none else some ((digitsVal ds : Int))

/-- The range-parsing prefix of the range branch:
`parts = range.replace(/bytes=/, "").split("-")`,
`start = parseInt(parts[0], 10)`,
`end = parts[1] ? parseInt(parts[1], 10) : fileSize - 1`.
Returns `(start, end)` with `none` for `NaN`. -/
def parseRangeJS (range : List Char) (fileSize : Nat) : Option Int × Option Int :=
  let parts := splitOnChar '-' (removeFirstOcc ("bytes=".toList) range)
  let s := parseIntJS (parts.headD [])
  let e : Option Int :=
    match parts.get? 1 with
    | some p1 => if p1 = [] then some ((fileSize : Int) - 1) else parseIntJS p1
    | none => some ((fileSize : Int) - 1)
  (s, e)

/-- The `if (range)` branch of the route. `fs.createReadStream(filePath,
{start, end})` validates its options synchronously — `start`/`end` must
be integers (`NaN` throws), non-negative, with `start ≤ end` — and any
throw lands in the route's catch, which answers 500. The stream itself
yields the bytes from `start` through `end`, clipped at end-of-file;
`res.writeHead(206, head)` happens after the stream is constructed. -/
def rangeBranch (bytes : List Nat) (range : List Char) : HttpResponse :=
  let fileSize := bytes.length
  match parseRangeJS range fileSize with
  | (some s, some e) =>
      if s < 0 then .serverError
      else if e < 0 then .serverError
      else if e < s then .serverError
      else .ranged s e fileSize (e - s + 1)
        ((bytes.drop s.toNat).take (e - s + 1).toNat)
  | _ => .serverError

/-- The whole route handler, after `authenticateToken` has passed.
`findRoom` is `Room.findById`; `fileOnDisk path` is the file's bytes, or
`none` when `fs.statSync` would throw (file missing). The Range header
is `none` when absent; an empty header string is falsy in
`if (range)`. -/
def streamVideo (findRoom : String → Option Room)
    (fileOnDisk : String → Option (List Nat))
    (roomId : String) (rangeHeader : Option String) : HttpResponse :=
  match findRoom roomId with
  | none => .notFound
  | some room =>
      if room.isLocalFile = false then .notFound
      else match room.localFilePath with
        | none => .notFound
        | some fp =>
            if fp = "" then .notFound
            else match fileOnDisk fp with
              | none => .serverError
              | some bytes =>
                  match rangeHeader with
                  | none => .ok bytes.length bytes
                  | some range =>
                      if range = "" then .ok bytes.length bytes
                      else rangeBranch bytes range.toList

/-! ## Concrete scenario used by the witnesses -/

/-- Environment whose token verification always fails. -/
def envNone : Env := { verify := fun _ => none, usernameOf := fun _ => "" }

/-- Environment that accepts exactly the token `"tok"` as user `"u1"`,
whose username resolves to `"alice"`. -/
def envAuth : Env :=
  { verify := fun t => if t = "tok" then some "u1" else none,
    usernameOf := fun u => if u = "u1" then "alice" else "" }

/-- The state after socket `"s1"` joins room `"r1"` on a fresh server. -/
def gw1 : GatewayState :=
  (handleEvent envNone initialGateway [] (.joinRoom "s1" "r1")).1

/-- The session `gw1` holds for room `"r1"`. -/
def sess1 : RoomSession :=
  { freshSession with users := insert "s1" freshSession.users }

/-! ## Concrete fixtures for the streaming route -/

/-- A 4-byte video file. -/
def file4 : List Nat := [10, 20, 30, 40]

/-- A room store holding one local-file room `"room1"` backed by
`"v.mp4"`. -/
def findRoom1 : String → Option Room :=
  fun r => if r = "room1" then some { isLocalFile := true, localFilePath := some "v.mp4" } else none

/-- A filesystem holding `"v.mp4"` with the bytes of `file4`. -/
def disk1 : String → Option (List Nat) :=
  fun p => if p = "v.mp4" then some file4 else none

/-- A filesystem with no files at all. -/
def diskEmpty : String → Option (List Nat) := fun _ => none

/-! ## Handler characterizations and the registry invariant -/

theorem upd_self {α : Type} (f : String → α) (k : String) (v : α) : upd f k v k = v := by
  simp [upd]

theorem upd_ne {α : Type} (f : String → α) (k : String) (v : α) (x : String)
    (h : x ≠ k) : upd f k v x = f x := by
  simp [upd, h]

theorem join_sockets (env : Env) (st : GatewayState) (db : List ChatRecord)
    (sock roomId r : String) :
    (handleEvent env st db (.joinRoom sock roomId)).1.socketRooms r =
      if r = roomId then insert sock (st.socketRooms roomId) else st.socketRooms r := by
  cases h : st.registry roomId <;>
    simp [handleEvent, h, upd]

theorem join_registry (env : Env) (st : GatewayState) (db : List ChatRecord)
    (sock roomId r : String) :
    (handleEvent env st db (.joinRoom sock roomId)).1.registry r =
      if r = roomId then
        (match st.registry roomId with
         | some s => some { s with users := insert sock s.users }
         | none => some { freshSession with users := insert sock freshSession.users })
      else st.registry r := by
  cases h : st.registry roomId with
  | none =>
      simp only [handleEvent, h]
      by_cases hr : r = roomId <;> simp [upd, hr]
  | some s =>
      simp only [handleEvent, h, upd]

theorem join_db_effects (env : Env) (st : GatewayState) (db : List ChatRecord)
    (sock roomId : String) :
    (handleEvent env st db (.joinRoom sock roomId)).2 = (db, []) := by
  cases h : st.registry roomId <;> simp [handleEvent, h]

theorem vsc_of_none (env : Env) (st : GatewayState) (db : List ChatRecord)
    (sock roomId : String) (vs : VideoState) (h : st.registry roomId = none) :
    handleEvent env st db (.videoStateChange sock roomId vs) = (st, db, []) := by
  simp [handleEvent, h]

theorem vsc_of_some (env : Env) (st : GatewayState) (db : List ChatRecord)
    (sock roomId : String) (vs : VideoState) (s : RoomSession)
    (h : st.registry roomId = some s) :
    handleEvent env st db (.videoStateChange sock roomId vs) =
      ({ st with registry := upd st.registry roomId (some { s with videoState := vs }) },
       db,
       [.send ((st.socketRooms roomId).erase sock) "video-state-update" (.video vs)]) := by
  simp [handleEvent, h]

theorem vsc_registry (env : Env) (st : GatewayState) (db : List ChatRecord)
    (sock roomId : String) (vs : VideoState) (s : RoomSession)
    (h : st.registry roomId = some s) (r : String) :
    (handleEvent env st db (.videoStateChange sock roomId vs)).1.registry r =
      (if r = roomId then some { s with videoState := vs } else st.registry r) := by
  by_cases hr : r = roomId <;> simp [handleEvent, h, upd, hr]

theorem vsc_sockets (env : Env) (st : GatewayState) (db : List ChatRecord)
    (sock roomId : String) (vs : VideoState) (r : String) :
    (handleEvent env st db (.videoStateChange sock roomId vs)).1.socketRooms r =
      st.socketRooms r := by
  cases h : st.registry roomId <;> simp [handleEvent, h]

theorem disconnect_registry_none (env : Env) (st : GatewayState) (db : List ChatRecord)
    (sock r : String) (h : st.registry r = none) :
    (handleEvent env st db (.disconnect sock)).1.registry r = none := by
  simp [handleEvent, h]

theorem disconnect_registry_some (env : Env) (st : GatewayState) (db : List ChatRecord)
    (sock r : String) (s : RoomSession) (h : st.registry r = some s) :
    (handleEvent env st db (.disconnect sock)).1.registry r =
      (if s.users.erase sock = ∅ then none
       else some { s with users := s.users.erase sock }) := by
  simp [handleEvent, h]

theorem disconnect_sockets (env : Env) (st : GatewayState) (db : List ChatRecord)
    (sock r : String) :
    (handleEvent env st db (.disconnect sock)).1.socketRooms r =
      (st.socketRooms r).erase sock := rfl

theorem disconnect_db_effects (env : Env) (st : GatewayState) (db : List ChatRecord)
    (sock : String) :
    (handleEvent env st db (.disconnect sock)).2 = (db, []) := rfl

theorem chat_of_verifyFail (env : Env) (st : GatewayState) (db : List ChatRecord)
    (sock roomId msg token : String) (now : Nat) (sOk pOk : Bool)
    (h : env.verify token = none) :
    handleEvent env st db (.chatMessage sock roomId msg token now sOk pOk) = (st, db, []) := by
  simp [handleEvent, h]

theorem chat_of_saveFail (env : Env) (st : GatewayState) (db : List ChatRecord)
    (sock roomId msg token : String) (now : Nat) (pOk : Bool) (uid : String)
    (h : env.verify token = some uid) :
    handleEvent env st db (.chatMessage sock roomId msg token now false pOk) = (st, db, []) := by
  simp [handleEvent, h]

theorem chat_of_ok (env : Env) (st : GatewayState) (db : List ChatRecord)
    (sock roomId msg token : String) (now : Nat) (uid : String)
    (h : env.verify token = some uid) :
    handleEvent env st db (.chatMessage sock roomId msg token now true true) =
      (st, db ++ [{ room := roomId, user := uid, message := msg, timestamp := now }],
       [.persist { room := roomId, user := uid, message := msg, timestamp := now },
        .send (st.socketRooms roomId) "chat-message" (.chat msg (env.usernameOf uid) now)]) := by
  simp [handleEvent, h]

theorem chat_state_unchanged (env : Env) (st : GatewayState) (db : List ChatRecord)
    (sock roomId msg token : String) (now : Nat) (sOk pOk : Bool) :
    (handleEvent env st db (.chatMessage sock roomId msg token now sOk pOk)).1 = st := by
  cases h : env.verify token with
  | none => simp [handleEvent, h]
  | some uid => cases sOk <;> cases pOk <;> simp [handleEvent, h]

theorem sessionUsers_of_none {st : GatewayState} {r : String}
    (h : st.registry r = none) : sessionUsers st r = ∅ := by
  simp [sessionUsers, h]

theorem sessionUsers_of_some {st : GatewayState} {r : String} {s : RoomSession}
    (h : st.registry r = some s) : sessionUsers st r = s.users := by
  simp [sessionUsers, h]

/-- Every reachable gateway state satisfies the structural invariant. -/
theorem reachable_inv (st : GatewayState) (db : List ChatRecord)
    (h : Reachable st db) : GatewayInv st := by
  induction h with
  | init =>
      intro r
      refine ⟨fun s hs => by simp [initialGateway] at hs, ?_⟩
      simp [sessionUsers, initialGateway]
  | step env st db e hR ih =>
      cases e with
      | joinRoom sock roomId =>
          intro r
          have hreg := join_registry env st db sock roomId r
          have hsock := join_sockets env st db sock roomId r
          have hmem := (ih r).2
          by_cases hr : r = roomId
          · subst hr
            rw [if_pos rfl] at hreg hsock
            cases h0 : st.registry r with
            | none =>
                rw [h0] at hreg
                have hempty : st.socketRooms r = ∅ := by
                  rw [← hmem, sessionUsers_of_none h0]
                refine ⟨fun s hs => ?_, ?_⟩
                · rw [hreg] at hs
                  injection hs with hs
                  rw [← hs]
                  exact Finset.insert_nonempty _ _
                · rw [sessionUsers_of_some hreg, hsock, hempty]
                  simp [freshSession]
            | some s0 =>
                rw [h0] at hreg
                refine ⟨fun s hs => ?_, ?_⟩
                · rw [hreg] at hs
                  injection hs with hs
                  rw [← hs]
                  exact Finset.insert_nonempty _ _
                · rw [sessionUsers_of_some hreg, hsock, ← hmem,
                    sessionUsers_of_some h0]
          · rw [if_neg hr] at hreg hsock
            refine ⟨fun s hs => (ih r).1 s (hreg ▸ hs), ?_⟩
            have : sessionUsers (handleEvent env st db (.joinRoom sock roomId)).1 r
                = sessionUsers st r := by
              simp [sessionUsers, hreg]
            rw [this, hsock, hmem]
      | videoStateChange sock roomId vs =>
          cases h0 : st.registry roomId with
          | none =>
              have heq := vsc_of_none env st db sock roomId vs h0
              rw [heq]
              exact ih
          | some s =>
              intro r
              have hreg := vsc_registry env st db sock roomId vs s h0 r
              have hsock := vsc_sockets env st db sock roomId vs r
              have hmem := (ih r).2
              by_cases hr : r = roomId
              · subst hr
                rw [if_pos rfl] at hreg
                refine ⟨fun s1 hs => ?_, ?_⟩
                · rw [hreg] at hs
                  injection hs with hs
                  rw [← hs]
                  exact (ih r).1 s h0
                · rw [sessionUsers_of_some hreg, hsock, ← hmem,
                    sessionUsers_of_some h0]
              · rw [if_neg hr] at hreg
                refine ⟨fun s1 hs => (ih r).1 s1 (hreg ▸ hs), ?_⟩
                have : sessionUsers
                    (handleEvent env st db (.videoStateChange sock roomId vs)).1 r
                    = sessionUsers st r := by
                  simp [sessionUsers, hreg]
                rw [this, hsock, hmem]
      | chatMessage sock roomId msg token now sOk pOk =>
          rw [chat_state_unchanged env st db sock roomId msg token now sOk pOk]
          exact ih
      | disconnect sock =>
          intro r
          have hsock := disconnect_sockets env st db sock r
          have hmem := (ih r).2
          cases h0 : st.registry r with
          | none =>
              have hreg := disconnect_registry_none env st db sock r h0
              have hempty : st.socketRooms r = ∅ := by
                rw [← hmem, sessionUsers_of_none h0]
              refine ⟨fun s hs => ?_, ?_⟩
              · rw [hreg] at hs
                cases hs
              · rw [sessionUsers_of_none hreg, hsock, hempty]
                simp
          | some s =>
              have hreg := disconnect_registry_some env st db sock r s h0
              by_cases he : s.users.erase sock = ∅
              · rw [if_pos he] at hreg
                refine ⟨fun s1 hs => ?_, ?_⟩
                · rw [hreg] at hs
                  cases hs
                · rw [sessionUsers_of_none hreg, hsock, ← hmem,
                    sessionUsers_of_some h0, he]
              · rw [if_neg he] at hreg
                refine ⟨fun s1 hs => ?_, ?_⟩
                · rw [hreg] at hs
                  injection hs with hs
                  rw [← hs]
                  exact Finset.nonempty_iff_ne_empty.mpr he
                · rw [sessionUsers_of_some hreg, hsock, ← hmem,
                    sessionUsers_of_some h0]

theorem reach1 : Reachable gw1 [] :=
  Reachable.step envNone initialGateway [] (.joinRoom "s1" "r1") Reachable.init

/-! ## Streaming route helper lemmas -/

theorem streamVideo_of_valid (findRoom : String → Option Room)
    (disk : String → Option (List Nat)) (roomId : String) (room : Room)
    (fp : String) (bytes : List Nat)
    (hroom : findRoom roomId = some room) (hlocal : room.isLocalFile = true)
    (hpath : room.localFilePath = some fp) (hfp : fp ≠ "")
    (hdisk : disk fp = some bytes) (rangeHeader : Option String) :
    streamVideo findRoom disk roomId rangeHeader =
      (match rangeHeader with
       | none => .ok bytes.length bytes
       | some range =>
           if range = "" then .ok bytes.length bytes
           else rangeBranch bytes range.toList) := by
  simp [streamVideo, hroom, hlocal, hpath, hfp, hdisk]

theorem rangeBranch_eq_ranged (bytes : List Nat) (range : List Char) (s e : Int)
    (hparse : parseRangeJS range bytes.length = (some s, some e))
    (hs : 0 ≤ s) (hse : s ≤ e) :
    rangeBranch bytes range =
      .ranged s e bytes.length (e - s + 1)
        ((bytes.drop s.toNat).take (e - s + 1).toNat) := by
  have h1 : ¬ s < 0 := not_lt.mpr hs
  have h2 : ¬ e < 0 := not_lt.mpr (le_trans hs hse)
  have h3 : ¬ e < s := not_lt.mpr hse
  simp only [rangeBranch, hparse]
  simp [h1, h2, h3]

theorem rangeBranch_of_startGtEnd (bytes : List Nat) (range : List Char) (s e : Int)
    (hparse : parseRangeJS range bytes.length = (some s, some e))
    (hlt : e < s) :
    rangeBranch bytes range = .serverError := by
  simp only [rangeBranch, hparse]
  by_cases h1 : s < 0
  · simp [h1]
  · by_cases h2 : e < 0
    · simp [h1, h2]
    · simp [h1, h2, hlt]

theorem rangeBranch_of_nan (bytes : List Nat) (range : List Char)
    (h : (parseRangeJS range bytes.length).1 = none ∨
         (parseRangeJS range bytes.length).2 = none) :
    rangeBranch bytes range = .serverError := by
  rcases hp : parseRangeJS range bytes.length with ⟨p1, p2⟩
  rw [hp] at h
  simp only [rangeBranch, hp]
  cases p1 with
  | none => rfl
  | some s =>
      cases p2 with
      | none => rfl
      | some e => simp at h

theorem rangeBranch_ne_notFound (bytes : List Nat) (range : List Char) :
    rangeBranch bytes range ≠ .notFound := by
  rcases hp : parseRangeJS range bytes.length with ⟨p1, p2⟩
  simp only [rangeBranch, hp]
  cases p1 with
  | none => simp
  | some s =>
      cases p2 with
      | none => simp
      | some e =>
          by_cases h1 : s < 0
          · simp [h1]
          · by_cases h2 : e < 0
            · simp [h1, h2]
            · by_cases h3 : e < s
              · simp [h1, h2, h3]
              · simp [h1, h2, h3]

theorem slice_length (l : List Nat) (a b : Nat) (hab : a + b ≤ l.length) :
    ((l.drop a).take b).length = b := by
  simp [List.length_take, List.length_drop]
  omega

theorem slice_getD (l : List Nat) (a b i : Nat) (hab : a + b ≤ l.length) (hi : i < b) :
    ((l.drop a).take b).getD i 0 = l.getD (a + i) 0 := by
  have h2 : a + i < l.length := by omega
  have h1 : i < ((l.drop a).take b).length := by
    simp [List.length_take, List.length_drop]; omega
  rw [List.getD_eq_getElem _ _ h1, List.getD_eq_getElem _ _ h2]
  simp [List.getElem_take, List.getElem_drop]

/-! ## Claims about the gateway -/

/-- C2: on every reachable state, a room has a live session iff its
member set is non-empty; a join on a session-less room creates the
default state `{isPlaying := false, currentTime := 0}` with the joiner
as sole member; and a disconnect of the last member deletes the
session. -/
theorem sessionLifecycleC2 (st : GatewayState) (db : List ChatRecord)
    (h : Reachable st db) (r : String) :
    ((st.registry r).isSome ↔ (sessionUsers st r).Nonempty) ∧
    (∀ env sock, st.registry r = none →
      (handleEvent env st db (.joinRoom sock r)).1.registry r
        = some { freshSession with users := insert sock freshSession.users }) ∧
    (∀ env sock s, st.registry r = some s → s.users = {sock} →
      (handleEvent env st db (.disconnect sock)).1.registry r = none) := by
  have inv := reachable_inv st db h
  refine ⟨⟨?_, ?_⟩, ?_, ?_⟩
  · intro hs
    cases h0 : st.registry r with
    | none => rw [h0] at hs; simp at hs
    | some s => rw [sessionUsers_of_some h0]; exact (inv r).1 s h0
  · intro hne
    cases h0 : st.registry r with
    | none =>
        rw [sessionUsers_of_none h0] at hne
        exact absurd hne (by simp)
    | some s => rfl
  · intro env sock h0
    rw [join_registry, if_pos rfl, h0]
  · intro env sock s h0 hu
    rw [disconnect_registry_some env st db sock r s h0, hu]
    simp

theorem sessionLifecycleC2_witness :
    ((initialGateway.registry "r1").isSome ↔ (sessionUsers initialGateway "r1").Nonempty) ∧
    (handleEvent envNone initialGateway [] (.joinRoom "s1" "r1")).1.registry "r1"
      = some { freshSession with users := insert "s1" freshSession.users } :=
  ⟨(sessionLifecycleC2 initialGateway [] Reachable.init "r1").1,
   (sessionLifecycleC2 initialGateway [] Reachable.init "r1").2.1 envNone "s1" rfl⟩

/-- C3: on every reachable state, a `video-state-change` on a room with a
live session replaces the session's `videoState` by the submitted state
and emits exactly one `video-state-update`, whose payload is the
submitted state, to the room's members minus the sender (N−1 sockets
when the sender is one of the N members); on a room without a session it
leaves state, store and wire untouched. -/
theorem playbackC3 (env : Env) (st : GatewayState) (db : List ChatRecord)
    (h : Reachable st db) (sock roomId : String) (vs : VideoState) :
    (∀ s, st.registry roomId = some s →
      (handleEvent env st db (.videoStateChange sock roomId vs)).1.registry roomId
        = some { videoState := vs, users := s.users } ∧
      (handleEvent env st db (.videoStateChange sock roomId vs)).2.2
        = [.send (s.users.erase sock) "video-state-update" (.video vs)] ∧
      (sock ∈ s.users → (s.users.erase sock).card = s.users.card - 1) ∧
      sock ∉ s.users.erase sock) ∧
    (st.registry roomId = none →
      handleEvent env st db (.videoStateChange sock roomId vs) = (st, db, [])) := by
  have inv := reachable_inv st db h
  refine ⟨fun s h0 => ?_, fun h0 => vsc_of_none env st db sock roomId vs h0⟩
  have hsr : st.socketRooms roomId = s.users := by
    rw [← (inv roomId).2, sessionUsers_of_some h0]
  refine ⟨?_, ?_, fun hm => Finset.card_erase_of_mem hm, Finset.not_mem_erase _ _⟩
  · rw [vsc_registry env st db sock roomId vs s h0, if_pos rfl]
  · rw [vsc_of_some env st db sock roomId vs s h0]
    rw [hsr]

theorem playbackC3_witness :
    gw1.registry "r1" = some sess1 ∧
    (handleEvent envNone gw1 [] (.videoStateChange "s1" "r1"
        { isPlaying := true, currentTime := 42 })).1.registry "r1"
      = some { videoState := { isPlaying := true, currentTime := 42 }, users := sess1.users } ∧
    (handleEvent envNone gw1 [] (.videoStateChange "s1" "r1"
        { isPlaying := true, currentTime := 42 })).2.2
      = [.send (sess1.users.erase "s1") "video-state-update"
          (.video { isPlaying := true, currentTime := 42 })] :=
  ⟨rfl,
   ((playbackC3 envNone gw1 [] reach1 "s1" "r1"
      { isPlaying := true, currentTime := 42 }).1 sess1 rfl).1,
   ((playbackC3 envNone gw1 [] reach1 "s1" "r1"
      { isPlaying := true, currentTime := 42 }).1 sess1 rfl).2.1⟩

/-- C4: a chat message whose token verifies and whose save succeeds is
appended to the persistent store, and the handler's effect trace is the
save followed (strictly after) by a single broadcast to all members of
the room — sender included — whose payload carries the persisted
record's text, timestamp and the resolved author name. -/
theorem chatPersistC4 (env : Env) (st : GatewayState) (db : List ChatRecord)
    (h : Reachable st db) (sock roomId msg token : String) (now : Nat) (uid : String)
    (hv : env.verify token = some uid) :
    (handleEvent env st db (.chatMessage sock roomId msg token now true true)).2.1
      = db ++ [{ room := roomId, user := uid, message := msg, timestamp := now }] ∧
    (handleEvent env st db (.chatMessage sock roomId msg token now true true)).2.2
      = [.persist { room := roomId, user := uid, message := msg, timestamp := now },
         .send (sessionUsers st roomId) "chat-message"
           (.chat msg (env.usernameOf uid) now)] ∧
    (handleEvent env st db (.chatMessage sock roomId msg token now true true)).1 = st := by
  have inv := reachable_inv st db h
  rw [chat_of_ok env st db sock roomId msg token now uid hv]
  exact ⟨rfl, by rw [(inv roomId).2], rfl⟩

theorem chatPersistC4_witness :
    envAuth.verify "tok" = some "u1" ∧
    (handleEvent envAuth gw1 [] (.chatMessage "s1" "r1" "hi" "tok" 5 true true)).2.1
      = [] ++ [{ room := "r1", user := "u1", message := "hi", timestamp := 5 }] ∧
    (handleEvent envAuth gw1 [] (.chatMessage "s1" "r1" "hi" "tok" 5 true true)).2.2
      = [.persist { room := "r1", user := "u1", message := "hi", timestamp := 5 },
         .send (sessionUsers gw1 "r1") "chat-message" (.chat "hi" "alice" 5)] :=
  ⟨by decide,
   (chatPersistC4 envAuth gw1 [] reach1 "s1" "r1" "hi" "tok" 5 "u1" (by decide)).1,
   (chatPersistC4 envAuth gw1 [] reach1 "s1" "r1" "hi" "tok" 5 "u1" (by decide)).2.1⟩

/-- C5: a chat message whose token fails to verify, or whose save fails,
leaves the gateway state (membership, playback state, open connections)
and the chat store untouched and performs no effect at all — no persist,
no broadcast, nothing surfaced to the sender. -/
theorem chatFailC5 (env : Env) (st : GatewayState) (db : List ChatRecord)
    (sock roomId msg token : String) (now : Nat) (sOk pOk : Bool)
    (hfail : env.verify token = none ∨ sOk = false) :
    handleEvent env st db (.chatMessage sock roomId msg token now sOk pOk)
      = (st, db, []) := by
  rcases hfail with hv | hs
  · exact chat_of_verifyFail env st db sock roomId msg token now sOk pOk hv
  · subst hs
    cases hv : env.verify token with
    | none => exact chat_of_verifyFail env st db sock roomId msg token now false pOk hv
    | some uid => exact chat_of_saveFail env st db sock roomId msg token now pOk uid hv

theorem chatFailC5_witness :
    envNone.verify "badtok" = none ∧
    handleEvent envNone gw1 [] (.chatMessage "s1" "r1" "hi" "badtok" 5 true true)
      = (gw1, [], []) :=
  ⟨rfl, chatFailC5 envNone gw1 [] "s1" "r1" "hi" "badtok" 5 true true (Or.inl rfl)⟩

/-- C10: the chat path checks only the token: even from a sender that
never joined the room, with no live session for it in the registry, a
verified chat message is persisted and broadcast to the room's
Socket.IO membership. -/
theorem chatNoMembershipC10 (env : Env) (st : GatewayState) (db : List ChatRecord)
    (sock roomId msg token : String) (now : Nat) (uid : String)
    (hv : env.verify token = some uid)
    (_hnosess : st.registry roomId = none)
    (_hnomem : sock ∉ st.socketRooms roomId) :
    (handleEvent env st db (.chatMessage sock roomId msg token now true true)).2.1
      = db ++ [{ room := roomId, user := uid, message := msg, timestamp := now }] ∧
    (handleEvent env st db (.chatMessage sock roomId msg token now true true)).2.2
      = [.persist { room := roomId, user := uid, message := msg, timestamp := now },
         .send (st.socketRooms roomId) "chat-message"
           (.chat msg (env.usernameOf uid) now)] := by
  rw [chat_of_ok env st db sock roomId msg token now uid hv]
  exact ⟨rfl, rfl⟩

theorem chatNoMembershipC10_witness :
    envAuth.verify "tok" = some "u1" ∧
    initialGateway.registry "r9" = none ∧
    "s1" ∉ initialGateway.socketRooms "r9" ∧
    (handleEvent envAuth initialGateway [] (.chatMessage "s1" "r9" "hi" "tok" 5 true true)).2.1
      = [] ++ [{ room := "r9", user := "u1", message := "hi", timestamp := 5 }] ∧
    (handleEvent envAuth initialGateway [] (.chatMessage "s1" "r9" "hi" "tok" 5 true true)).2.2
      = [.persist { room := "r9", user := "u1", message := "hi", timestamp := 5 },
         .send (initialGateway.socketRooms "r9") "chat-message" (.chat "hi" "alice" 5)] :=
  ⟨by decide, rfl, by simp [initialGateway],
   (chatNoMembershipC10 envAuth initialGateway [] "s1" "r9" "hi" "tok" 5 "u1"
      (by decide) rfl (by simp [initialGateway])).1,
   (chatNoMembershipC10 envAuth initialGateway [] "s1" "r9" "hi" "tok" 5 "u1"
      (by decide) rfl (by simp [initialGateway])).2⟩

/-- C1 counterexample: on a fresh server, a `join-room` request performs
no send at all — the caller receives neither the room's playback state
nor any chat history from the gateway (the effect trace is empty). -/
theorem joinC1_counterexample :
    (handleEvent envNone initialGateway [] (.joinRoom "s1" "r1")).2.2
      = ([] : List Effect) := rfl

/-- C1 (amended): a join registers the connection in the room's session —
creating one with default state `{isPlaying := false, currentTime := 0}`
when none exists — but the handler sends nothing back: no playback
state, no chat history (clients fetch history through the separate
HTTP `GET /api/rooms/:id/messages` route). -/
theorem joinC1_amended (env : Env) (st : GatewayState) (db : List ChatRecord)
    (sock roomId : String) :
    (handleEvent env st db (.joinRoom sock roomId)).2.1 = db ∧
    (handleEvent env st db (.joinRoom sock roomId)).2.2 = [] ∧
    (handleEvent env st db (.joinRoom sock roomId)).1.socketRooms roomId
      = insert sock (st.socketRooms roomId) ∧
    (st.registry roomId = none →
      (handleEvent env st db (.joinRoom sock roomId)).1.registry roomId
        = some { freshSession with users := insert sock freshSession.users }) ∧
    (∀ s, st.registry roomId = some s →
      (handleEvent env st db (.joinRoom sock roomId)).1.registry roomId
        = some { s with users := insert sock s.users }) := by
  have hde := join_db_effects env st db sock roomId
  refine ⟨congrArg Prod.fst hde, congrArg Prod.snd hde, ?_, ?_, ?_⟩
  · rw [join_sockets, if_pos rfl]
  · intro h0
    rw [join_registry, if_pos rfl, h0]
  · intro s h0
    rw [join_registry, if_pos rfl, h0]

theorem joinC1_amended_witness :
    (handleEvent envNone initialGateway [] (.joinRoom "s1" "r1")).2.2 = ([] : List Effect) ∧
    (handleEvent envNone initialGateway [] (.joinRoom "s1" "r1")).1.registry "r1"
      = some { freshSession with users := insert "s1" freshSession.users } :=
  ⟨(joinC1_amended envNone initialGateway [] "s1" "r1").2.1,
   (joinC1_amended envNone initialGateway [] "s1" "r1").2.2.2.1 rfl⟩

/-! ## Claims about the streaming route -/

/-- C6 counterexample: on the 4-byte file, the request
`Range: bytes=50-60` is answered 206 with `Content-Range:
bytes 50-60/4` — the start position 50 is *not* clamped to
`fileSize - 1 = 3`; it is reflected verbatim (and the body is empty). -/
theorem rangeStartClampC6_counterexample :
    streamVideo findRoom1 disk1 "room1" (some "bytes=50-60")
      = HttpResponse.ranged 50 60 4 11 [] ∧
    ¬((50 : Int) ≤ (4 : Int) - 1) := by decide

/-- C6 (amended): the start position of a parsed range is used exactly as
submitted, with no clamping: whenever `parseInt` yields `start` and
`end` with `0 ≤ start ≤ end`, the 206 response reflects that `start`
verbatim — even when `start > fileSize - 1`; and when `end < start`
(e.g. an omitted end defaulting to `fileSize - 1` below an oversized
start), the stream construction throws and the route answers 500. -/
theorem rangeStartClampC6_amended (bytes : List Nat) (range : String) (s e : Int)
    (hparse : parseRangeJS range.toList bytes.length = (some s, some e))
    (hs : 0 ≤ s) :
    (s ≤ e → rangeBranch bytes range.toList
      = .ranged s e bytes.length (e - s + 1)
          ((bytes.drop s.toNat).take (e - s + 1).toNat)) ∧
    (e < s → rangeBranch bytes range.toList = .serverError) :=
  ⟨fun hse => rangeBranch_eq_ranged bytes range.toList s e hparse hs hse,
   fun hlt => rangeBranch_of_startGtEnd bytes range.toList s e hparse hlt⟩

theorem rangeStartClampC6_amended_witness :
    parseRangeJS ("bytes=50-60".toList) file4.length = (some 50, some 60) ∧
    rangeBranch file4 ("bytes=50-60".toList)
      = HttpResponse.ranged 50 60 file4.length (60 - 50 + 1)
          ((file4.drop (50 : Int).toNat).take ((60 : Int) - 50 + 1).toNat) :=
  ⟨by decide,
   (rangeStartClampC6_amended file4 "bytes=50-60" 50 60 (by decide) (by decide)).1
     (by decide)⟩

/-- C7: a well-formed in-bounds range request on a valid local-file room
(`0 ≤ start ≤ end ≤ fileSize - 1`, the end defaulting to `fileSize - 1`
when omitted — both cases are covered by the parse hypothesis) yields
status 206 with `Content-Range: bytes start-end/fileSize`,
`Content-Length = end - start + 1`, and a body that is exactly that
byte window of the file: it has `end - start + 1` bytes and its `i`-th
byte is byte `start + i` of the file. -/
theorem rangeWindowC7 (findRoom : String → Option Room)
    (disk : String → Option (List Nat)) (roomId : String) (room : Room)
    (fp : String) (bytes : List Nat) (range : String) (s e : Int)
    (hroom : findRoom roomId = some room) (hlocal : room.isLocalFile = true)
    (hpath : room.localFilePath = some fp) (hfp : fp ≠ "")
    (hdisk : disk fp = some bytes) (hne : range ≠ "")
    (hparse : parseRangeJS range.toList bytes.length = (some s, some e))
    (hs : 0 ≤ s) (hse : s ≤ e) (he : e ≤ (bytes.length : Int) - 1) :
    streamVideo findRoom disk roomId (some range)
      = .ranged s e bytes.length (e - s + 1)
          ((bytes.drop s.toNat).take (e - s + 1).toNat) ∧
    ((bytes.drop s.toNat).take (e - s + 1).toNat).length = (e - s + 1).toNat ∧
    (∀ i : Nat, i < (e - s + 1).toNat →
      ((bytes.drop s.toNat).take (e - s + 1).toNat).getD i 0
        = bytes.getD (s.toNat + i) 0) := by
  have hab : s.toNat + (e - s + 1).toNat ≤ bytes.length := by omega
  refine ⟨?_, slice_length bytes s.toNat (e - s + 1).toNat hab,
    fun i hi => slice_getD bytes s.toNat (e - s + 1).toNat i hab hi⟩
  rw [streamVideo_of_valid findRoom disk roomId room fp bytes hroom hlocal hpath hfp hdisk]
  simp only [hne, if_neg hne]
  exact rangeBranch_eq_ranged bytes range.toList s e hparse hs hse

theorem rangeWindowC7_witness :
    streamVideo findRoom1 disk1 "room1" (some "bytes=1-2")
      = HttpResponse.ranged 1 2 file4.length ((2 : Int) - 1 + 1)
          ((file4.drop (1 : Int).toNat).take ((2 : Int) - 1 + 1).toNat) ∧
    ((file4.drop (1 : Int).toNat).take ((2 : Int) - 1 + 1).toNat).length
      = ((2 : Int) - 1 + 1).toNat :=
  ⟨(rangeWindowC7 findRoom1 disk1 "room1"
      { isLocalFile := true, localFilePath := some "v.mp4" } "v.mp4" file4
      "bytes=1-2" 1 2 rfl rfl rfl (by decide) rfl (by decide) (by decide)
      (by decide) (by decide) (by decide)).1,
   (rangeWindowC7 findRoom1 disk1 "room1"
      { isLocalFile := true, localFilePath := some "v.mp4" } "v.mp4" file4
      "bytes=1-2" 1 2 rfl rfl rfl (by decide) rfl (by decide) (by decide)
      (by decide) (by decide) (by decide)).2.1⟩

/-- C8 counterexample: a present but malformed Range header does not fall
back to the 200 full response: `Range: garbage` on the valid 4-byte
room is answered 500 (the `NaN` start makes the stream constructor
throw), not 200 with the whole file. -/
theorem rangeFallbackC8_counterexample :
    streamVideo findRoom1 disk1 "room1" (some "garbage") = HttpResponse.serverError ∧
    HttpResponse.serverError ≠ HttpResponse.ok 4 [10, 20, 30, 40] := by decide

/-- C8 (amended): the full 200 response (`Content-Length = fileSize`,
entire file) is produced exactly when the Range header is absent or
empty (JS-falsy); a present malformed header whose start or end parses
to `NaN` is instead handled by the range branch and answered 500. -/
theorem rangeFallbackC8_amended (findRoom : String → Option Room)
    (disk : String → Option (List Nat)) (roomId : String) (room : Room)
    (fp : String) (bytes : List Nat)
    (hroom : findRoom roomId = some room) (hlocal : room.isLocalFile = true)
    (hpath : room.localFilePath = some fp) (hfp : fp ≠ "")
    (hdisk : disk fp = some bytes) :
    streamVideo findRoom disk roomId none = .ok bytes.length bytes ∧
    streamVideo findRoom disk roomId (some "") = .ok bytes.length bytes ∧
    (∀ range : String, range ≠ "" →
      ((parseRangeJS range.toList bytes.length).1 = none ∨
       (parseRangeJS range.toList bytes.length).2 = none) →
      streamVideo findRoom disk roomId (some range) = .serverError) := by
  refine ⟨?_, ?_, fun range hne hnan => ?_⟩
  · rw [streamVideo_of_valid findRoom disk roomId room fp bytes hroom hlocal hpath hfp hdisk]
  · rw [streamVideo_of_valid findRoom disk roomId room fp bytes hroom hlocal hpath hfp hdisk]
    simp
  · rw [streamVideo_of_valid findRoom disk roomId room fp bytes hroom hlocal hpath hfp hdisk]
    simp only [if_neg hne]
    exact rangeBranch_of_nan bytes range.toList hnan

theorem rangeFallbackC8_amended_witness :
    streamVideo findRoom1 disk1 "room1" none = HttpResponse.ok file4.length file4 ∧
    streamVideo findRoom1 disk1 "room1" (some "garbage") = HttpResponse.serverError :=
  ⟨(rangeFallbackC8_amended findRoom1 disk1 "room1"
      { isLocalFile := true, localFilePath := some "v.mp4" } "v.mp4" file4
      rfl rfl rfl (by decide) rfl).1,
   (rangeFallbackC8_amended findRoom1 disk1 "room1"
      { isLocalFile := true, localFilePath := some "v.mp4" } "v.mp4" file4
      rfl rfl rfl (by decide) rfl).2.2 "garbage" (by decide) (Or.inl (by decide))⟩

/-- C9 counterexample: a room that exists, is a local-file room and has a
file path, whose file is missing from storage (`fs.statSync` throws),
is answered 500 — not the 404 the claim requires for a missing file. -/
theorem streamNotFoundC9_counterexample :
    streamVideo findRoom1 diskEmpty "room1" none = HttpResponse.serverError ∧
    HttpResponse.serverError ≠ HttpResponse.notFound := by decide

/-- C9 (amended): the 404 answer is produced exactly when the room does
not exist, is not a local-file room, or has no (or an empty) file path;
a file missing from the underlying storage instead produces the 500
catch-all answer. -/
theorem streamNotFoundC9_amended (findRoom : String → Option Room)
    (disk : String → Option (List Nat)) (roomId : String)
    (rangeHeader : Option String) :
    (streamVideo findRoom disk roomId rangeHeader = .notFound ↔
      (findRoom roomId = none ∨
       ∃ room, findRoom roomId = some room ∧
         (room.isLocalFile = false ∨ room.localFilePath = none ∨
          room.localFilePath = some ""))) ∧
    (∀ room fp, findRoom roomId = some room → room.isLocalFile = true →
      room.localFilePath = some fp → fp ≠ "" → disk fp = none →
      streamVideo findRoom disk roomId rangeHeader = .serverError) := by
  constructor
  · constructor
    · intro hresp
      cases hfr : findRoom roomId with
      | none => exact Or.inl rfl
      | some room =>
          refine Or.inr ⟨room, rfl, ?_⟩
          cases hl : room.isLocalFile with
          | false => exact Or.inl rfl
          | true =>
              refine Or.inr ?_
              cases hp : room.localFilePath with
              | none => exact Or.inl rfl
              | some fp =>
                  by_cases hfp : fp = ""
                  · refine Or.inr ?_
                    rw [← hfp]
                  · exfalso
                    cases hd : disk fp with
                    | none =>
                        have hse : streamVideo findRoom disk roomId rangeHeader
                            = .serverError := by
                          simp [streamVideo, hfr, hl, hp, hfp, hd]
                        rw [hse] at hresp
                        cases hresp
                    | some bytes =>
                        rw [streamVideo_of_valid findRoom disk roomId room fp bytes
                          hfr hl hp hfp hd] at hresp
                        cases rangeHeader with
                        | none => simp at hresp
                        | some range =>
                            by_cases hr0 : range = ""
                            · simp [hr0] at hresp
                            · simp only [hr0, if_neg hr0] at hresp
                              exact rangeBranch_ne_notFound bytes range.toList hresp
    · intro hcase
      rcases hcase with hfr | ⟨room, hfr, hbad⟩
      · simp [streamVideo, hfr]
      · rcases hbad with hl | hp | hp
        · simp [streamVideo, hfr, hl]
        · cases hl : room.isLocalFile with
          | false => simp [streamVideo, hfr, hl]
          | true => simp [streamVideo, hfr, hl, hp]
        · cases hl : room.isLocalFile with
          | false => simp [streamVideo, hfr, hl]
          | true => simp [streamVideo, hfr, hl, hp]
  · intro room fp hfr hl hp hfp hd
    simp [streamVideo, hfr, hl, hp, hfp, hd]

theorem streamNotFoundC9_amended_witness :
    streamVideo findRoom1 diskEmpty "room1" none = HttpResponse.serverError :=
  (streamNotFoundC9_amended findRoom1 diskEmpty "room1" none).2
    { isLocalFile := true, localFilePath := some "v.mp4" } "v.mp4"
    rfl rfl rfl (by decide) rfl
